import Mathlib

/-!
Shallow embedding of `plugins/modules/portainer.py` (marzekan/ansible-portainer).

The module's remote interactions (HTTP calls through `requests`, local file
opening) are modelled by a `World` record of oracle responses; each method of
`PortainerAPI` becomes a pure function from the `World` to an `Except`-value,
and `main` becomes `main_run`, which also records the ordered trace of remote
calls as a list of `Event`s.
-/

namespace Portainer

/-- One desired stack from the `stacks` module parameter: a dict with keys
`name` and `compose_file` (lines 396-398 of the source). -/
structure StackDeclaration where
  name : String
  compose_file : String
deriving DecidableEq, Repr

/-- One endpoint object as returned by `GET /api/endpoints`: the source reads
its `Name` and `Id` fields (lines 294-296). -/
structure Endpoint where
  Id : Int
  Name : String
deriving DecidableEq, Repr

/-- One stack object as returned by `GET /api/stacks`: the source reads its
`Name` field (line 250), preserving its case. -/
structure RemoteStack where
  Name : String
deriving DecidableEq, Repr

/-- The exceptions the `PortainerAPI` methods can raise.  In Python every one
is an `Exception` whose message was rewritten to name the failing operation;
here each rewritten message family is one constructor.  `endpointNotFound`
carries the message because `get_endpoint_id` raises it with two different
texts (lines 292 and 298-300).  `fileOpenFailed` models the `open` call of
line 315 raising (e.g. `FileNotFoundError`): it sits outside the `try` block
of `create_stack`, so it propagates. -/
inductive ApiError
  | pingFailed
  | checkAdminFailed
  | createAdminFailed
  | authFailed
  | createEndpointFailed
  | getEndpointsFailed
  | endpointNotFound (msg : String)
  | getStacksFailed
  | fileOpenFailed (path : String)
deriving DecidableEq, Repr

/-- One remote call (or local compose-file submission) made during a run, in
the order `main` performs them. -/
inductive Event
  | ping
  | checkAdmin
  | createAdmin
  | createSession
  | createEndpoint
  | getEndpoints
  | getStacks
  | createStack (name : String)
deriving DecidableEq, Repr

/-- Oracle for everything outside the module: how each HTTP request and each
local file open would answer during this run.  `admin_check` is `.error ()` for
a transport exception and `.ok code` for a response with that status code;
`endpoints_resp` / `stacks_resp` are the parsed JSON bodies (or a transport
error); `file_ok p` says whether `open(p, "rb")` succeeds; `stack_create_ok n`
says whether the stack-creation POST for stack `n` succeeds. -/
structure World where
  ping_ok : Bool
  admin_check : Except Unit Nat
  create_admin_ok : Bool
  auth_ok : Bool
  jwt : String
  create_endpoint_ok : Bool
  endpoints_resp : Except Unit (List Endpoint)
  stacks_resp : Except Unit (List RemoteStack)
  file_ok : String → Bool
  stack_create_ok : String → Bool

/-- `PortainerAPI.ping` (lines 107-121): `GET /`, `raise_for_status`, re-raise
on any `RequestException`. -/
def ping (w : World) : Except ApiError Unit :=
  if w.ping_ok then .ok () else .error .pingFailed

/-- `PortainerAPI.check_admin_exists` (lines 152-172): `GET
/api/users/admin/check`; returns `True` exactly when the status code is 204,
`False` for any other response; re-raises on a transport exception. -/
def check_admin_exists (w : World) : Except ApiError Bool :=
  match w.admin_check with
  | .error _ => .error .checkAdminFailed
  | .ok code => if code = 204 then .ok true else .ok false

/-- `PortainerAPI.create_admin` (lines 124-149): `POST /api/users/admin/init`,
re-raise on failure. -/
def create_admin (w : World) : Except ApiError Unit :=
  if w.create_admin_ok then .ok () else .error .createAdminFailed

/-- `PortainerAPI.create_session` (lines 207-231): `POST /api/auth`, returns
the `jwt` field of the body, re-raises on failure. -/
def create_session (w : World) : Except ApiError String :=
  if w.auth_ok then .ok w.jwt else .error .authFailed

/-- `PortainerAPI.create_endpoint` (lines 175-204): `POST /api/endpoints`,
re-raise on failure. -/
def create_endpoint (w : World) : Except ApiError Unit :=
  if w.create_endpoint_ok then .ok () else .error .createEndpointFailed

/-- `PortainerAPI.get_all_stacks` (lines 234-258): `GET /api/stacks`, returns
`[stack["Name"] for stack in response.json()]` (names verbatim, case
preserved); re-raises on failure. -/
def get_all_stacks (w : World) : Except ApiError (List String) :=
  match w.stacks_resp with
  | .error _ => .error .getStacksFailed
  | .ok sts => .ok (sts.map RemoteStack.Name)

/-- `PortainerAPI._get_all_endpoints` (lines 261-284): `GET /api/endpoints`,
returns the JSON body, re-raises on failure. -/
def get_all_endpoints (w : World) : Except ApiError (List Endpoint) :=
  match w.endpoints_resp with
  | .error _ => .error .getEndpointsFailed
  | .ok eps => .ok eps

/-- The linear search of `get_endpoint_id` (lines 294-296): the `Id` of the
first endpoint whose `Name` equals `endpoint_name`, else nothing. -/
def find_endpoint : List Endpoint → String → Option Int
  | [], _ => none
  | e :: rest, n => if e.Name = n then some e.Id else find_endpoint rest n

/-- `PortainerAPI.get_endpoint_id` (lines 287-300): list all endpoints; raise
`"0 endpoints found."` on an empty list; otherwise return the first matching
`Id`, or raise the `Endpoint ... not found` message when no name matches. -/
def get_endpoint_id (w : World) (endpoint_name : String) : Except ApiError Int :=
  match get_all_endpoints w with
  | .error e => .error e
  | .ok endpoints =>
    if endpoints.length = 0 then
      .error (.endpointNotFound "0 endpoints found.")
    else
      match find_endpoint endpoints endpoint_name with
      | some i => .ok i
      | none => .error (.endpointNotFound
          ("ERROR (get_endpoint_id): Endpoint " ++ endpoint_name ++ " not found"))

/-- `PortainerAPI.create_stack` (lines 303-339).  The compose file is opened at
line 315, OUTSIDE the `try` block, so a failure of `open` raises out of the
method; only a `RequestException` from the HTTP POST itself is caught and
turned into the `False` return value (line 339), with `True` on success. -/
def create_stack (w : World) (stack_name : String) (docker_compose_file : String) :
    Except ApiError Bool :=
  if w.file_ok docker_compose_file then .ok (w.stack_create_ok stack_name)
  else .error (.fileOpenFailed docker_compose_file)

/-- Python `str.lower()` as used at line 400: lowercase every character (the
names here are ASCII).  Defined structurally over the character list so that
it reduces in the kernel (`String.toLower` in core is defined by well-founded
recursion and does not). -/
def lowerStr (s : String) : String := ⟨s.data.map Char.toLower⟩

/-- The validated module parameters `main` reads (lines 367-372). -/
structure Params where
  initial_setup : Bool
  admin_username : String
  admin_password : String
  endpoint : String
  stacks_param : List StackDeclaration

/-- How a run of `main` ends: `noStacksFail` is the `fail_json` of line 375;
`failed e` is the `fail_json(changed=False, msg=...)` of line 408 reached when
an exception escapes the `try` block; `exited` is the `exit_json` of lines
414-418 with its `changed` flag, message, and the two counts (the source
formats the counts as strings; they are kept as the underlying numbers here). -/
inductive RunOutcome
  | noStacksFail
  | failed (e : ApiError)
  | exited (changed : Bool) (msg : String) (stacks_deployed : Nat)
      (stacks_failed_to_deploy : Nat)
deriving DecidableEq, Repr

/-- Lines 385-390 of `main`: when `initial_setup and not admin_exists`, run
`create_admin`, `create_session`, `create_endpoint` in that order; otherwise
just `create_session`.  Returns the events performed and the session token (or
the first error). -/
def bootstrapOrLogin (w : World) (p : Params) (admin_exists : Bool) :
    List Event × Except ApiError String :=
  if p.initial_setup && !admin_exists then
    match create_admin w with
    | .error e => ([.createAdmin], .error e)
    | .ok _ =>
      match create_session w with
      | .error e => ([.createAdmin, .createSession], .error e)
      | .ok tok =>
        match create_endpoint w with
        | .error e => ([.createAdmin, .createSession, .createEndpoint], .error e)
        | .ok _ => ([.createAdmin, .createSession, .createEndpoint], .ok tok)
  else
    match create_session w with
    | .error e => ([.createSession], .error e)
    | .ok tok => ([.createSession], .ok tok)

/-- The per-stack loop of `main` (lines 396-405): a stack whose lowercased
name is a member of `existing_stacks` is skipped (line 400); otherwise
`create_stack` is called and its boolean result appended to `created_stacks`.
An exception from `create_stack` (the compose-file `open`) escapes the loop.
Returns the `createStack` events in order and either the escaped error or the
list `created_stacks`. -/
def stacksLoop (w : World) (existing_stacks : List String) :
    List StackDeclaration → List Event × Except ApiError (List Bool)
  | [] => ([], .ok [])
  | stack :: rest =>
    if existing_stacks.contains (lowerStr stack.name) then
      stacksLoop w existing_stacks rest
    else
      match create_stack w stack.name stack.compose_file with
      | .error e => ([Event.createStack stack.name], .error e)
      | .ok b =>
        let r := stacksLoop w existing_stacks rest
        (Event.createStack stack.name :: r.1, Except.map (fun bs => b :: bs) r.2)

/-- `main` (lines 342-418): fail if the stack list is empty; then, inside one
`try`, ping, check the admin, bootstrap or just log in, resolve the endpoint
id, list the existing stacks, and run the per-stack loop; any exception lands
in `fail_json(changed=False, ...)`.  On success report
`changed = (created_stacks.count(True) > 0)`, the message
`f"{len(created_stacks)} stacks created"`, and the counts of `True` and
`False` in `created_stacks`. -/
def main_run (w : World) (p : Params) : List Event × RunOutcome :=
  if p.stacks_param.isEmpty then ([], .noStacksFail)
  else
    match ping w with
    | .error e => ([.ping], .failed e)
    | .ok _ =>
      match check_admin_exists w with
      | .error e => ([.ping, .checkAdmin], .failed e)
      | .ok admin_exists =>
        match bootstrapOrLogin w p admin_exists with
        | (bev, .error e) => (Event.ping :: Event.checkAdmin :: bev, .failed e)
        | (bev, .ok _token) =>
          match get_endpoint_id w p.endpoint with
          | .error e =>
              (Event.ping :: Event.checkAdmin :: (bev ++ [Event.getEndpoints]), .failed e)
          | .ok _endpoint_id =>
            match get_all_stacks w with
            | .error e =>
                (Event.ping :: Event.checkAdmin ::
                  (bev ++ [Event.getEndpoints, Event.getStacks]), .failed e)
            | .ok existing_stacks =>
              match stacksLoop w existing_stacks p.stacks_param with
              | (levs, .error e) =>
                  (Event.ping :: Event.checkAdmin ::
                    (bev ++ [Event.getEndpoints, Event.getStacks] ++ levs), .failed e)
              | (levs, .ok created_stacks) =>
                  (Event.ping :: Event.checkAdmin ::
                    (bev ++ [Event.getEndpoints, Event.getStacks] ++ levs),
                   .exited (decide (0 < created_stacks.count true))
                     (toString created_stacks.length ++ " stacks created")
                     (created_stacks.count true) (created_stacks.count false))

/-- Names of the stacks the per-stack loop actually creates (the attempts
recorded as `True` in `created_stacks`), in order: a stack contributes its
name when it is not skipped, its compose file opens, and the creation POST
succeeds; a compose-file failure cuts the loop short.  Used to describe the
remote state after a run when stating idempotence of a second run. -/
def createdNames (w : World) (existing_stacks : List String) :
    List StackDeclaration → List String
  | [] => []
  | stack :: rest =>
    if existing_stacks.contains (lowerStr stack.name) then
      createdNames w existing_stacks rest
    else if w.file_ok stack.compose_file then
      (if w.stack_create_ok stack.name then [stack.name] else []) ++
        createdNames w existing_stacks rest
    else []

/-- All-success oracle used to instantiate theorems on concrete runs: every
call succeeds, one endpoint named `local` with id 1, one existing remote
stack named `stack1`. -/
def w0 : World :=
  { ping_ok := true
    admin_check := Except.ok 200
    create_admin_ok := true
    auth_ok := true
    jwt := "tok"
    create_endpoint_ok := true
    endpoints_resp := Except.ok [⟨1, "local"⟩]
    stacks_resp := Except.ok [⟨"stack1"⟩]
    file_ok := fun _ => true
    stack_create_ok := fun _ => true }

/-- Concrete parameters used to instantiate theorems: two desired stacks
`Stack1` and `Stack2`, endpoint `local`, no initial setup. -/
def p0 : Params :=
  { initial_setup := false
    admin_username := "admin"
    admin_password := "pw"
    endpoint := "local"
    stacks_param := [⟨"Stack1", "s1.yml"⟩, ⟨"Stack2", "s2.yml"⟩] }

/-- The `changed` flag of a successful `exit_json`, when the outcome is one. -/
def changedOf : RunOutcome → Option Bool
  | .exited c _ _ _ => some c
  | _ => none

/-- The `stacks_deployed` count of a successful `exit_json`, when the outcome
is one. -/
def deployedOf : RunOutcome → Option Nat
  | .exited _ _ d _ => some d
  | _ => none

theorem create_stack_error_shape {w : World} {n f : String} {e : ApiError}
    (h : create_stack w n f = .error e) : e = .fileOpenFailed f := by
  unfold create_stack at h
  by_cases hf : w.file_ok f <;> simp [hf] at h
  exact h.symm

theorem ping_error_shape {w : World} {e : ApiError} (h : ping w = .error e) :
    e = .pingFailed := by
  unfold ping at h
  by_cases hp : w.ping_ok <;> simp [hp] at h
  exact h.symm

theorem check_admin_error_shape {w : World} {e : ApiError}
    (h : check_admin_exists w = .error e) : e = .checkAdminFailed := by
  unfold check_admin_exists at h
  cases hc : w.admin_check with
  | error u => simp [hc] at h; exact h.symm
  | ok code => rw [hc] at h; by_cases h204 : code = 204 <;> simp [h204] at h

theorem get_all_stacks_error_shape {w : World} {e : ApiError}
    (h : get_all_stacks w = .error e) : e = .getStacksFailed := by
  unfold get_all_stacks at h
  cases hc : w.stacks_resp with
  | error u => simp [hc] at h; exact h.symm
  | ok sts => simp [hc] at h

theorem get_endpoint_id_error_shape {w : World} {nm : String} {e : ApiError}
    (h : get_endpoint_id w nm = .error e) :
    e = .getEndpointsFailed ∨ ∃ msg, e = .endpointNotFound msg := by
  unfold get_endpoint_id get_all_endpoints at h
  cases hc : w.endpoints_resp with
  | error u => simp [hc] at h; exact Or.inl h.symm
  | ok eps =>
    rw [hc] at h
    by_cases hlen : eps.length = 0
    · simp [hlen] at h
      exact Or.inr ⟨_, h.symm⟩
    · simp [hlen] at h
      cases hf : find_endpoint eps nm <;> simp [hf] at h
      exact Or.inr ⟨_, h.symm⟩

theorem bootstrapOrLogin_error_shape {w : World} {p : Params} {b : Bool}
    {bev : List Event} {e : ApiError}
    (h : bootstrapOrLogin w p b = (bev, .error e)) :
    e = .createAdminFailed ∨ e = .authFailed ∨ e = .createEndpointFailed := by
  unfold bootstrapOrLogin at h
  by_cases hc : (p.initial_setup && !b) = true
  · rw [if_pos hc] at h
    unfold create_admin create_session create_endpoint at h
    by_cases h1 : w.create_admin_ok <;> by_cases h2 : w.auth_ok <;>
      by_cases h3 : w.create_endpoint_ok <;> simp [h1, h2, h3] at h <;> tauto
  · rw [if_neg hc] at h
    unfold create_session at h
    by_cases h2 : w.auth_ok <;> simp [h2] at h
    tauto

theorem bootstrapOrLogin_events {w : World} {p : Params} {b : Bool}
    (e : Event) (h : e ∈ (bootstrapOrLogin w p b).1) :
    e = .createAdmin ∨ e = .createSession ∨ e = .createEndpoint := by
  unfold bootstrapOrLogin at h
  by_cases hc : (p.initial_setup && !b) = true
  · rw [if_pos hc] at h
    unfold create_admin create_session create_endpoint at h
    by_cases h1 : w.create_admin_ok <;> by_cases h2 : w.auth_ok <;>
      by_cases h3 : w.create_endpoint_ok <;> simp [h1, h2, h3] at h <;> tauto
  · rw [if_neg hc] at h
    unfold create_session at h
    by_cases h2 : w.auth_ok <;> simp [h2] at h <;> tauto

theorem stacksLoop_events {w : World} {ex : List String} :
    ∀ {l : List StackDeclaration} {e : Event}, e ∈ (stacksLoop w ex l).1 →
      ∃ n, e = Event.createStack n
  | [], e, h => by simp [stacksLoop] at h
  | s :: rest, e, h => by
    unfold stacksLoop at h
    by_cases hc : ex.contains (lowerStr s.name)
    · rw [if_pos hc] at h
      exact stacksLoop_events h
    · rw [if_neg hc] at h
      cases hcs : create_stack w s.name s.compose_file with
      | error err => simp [hcs] at h; exact ⟨_, h⟩
      | ok b =>
        simp [hcs] at h
        cases h with
        | inl h => exact ⟨_, h⟩
        | inr h => exact stacksLoop_events h

theorem stacksLoop_error_shape {w : World} {ex : List String} :
    ∀ {l : List StackDeclaration} {e : ApiError}, (stacksLoop w ex l).2 = .error e →
      ∃ path, e = .fileOpenFailed path
  | [], e, h => by simp [stacksLoop] at h
  | s :: rest, e, h => by
    unfold stacksLoop at h
    by_cases hc : ex.contains (lowerStr s.name)
    · rw [if_pos hc] at h
      exact stacksLoop_error_shape h
    · rw [if_neg hc] at h
      cases hcs : create_stack w s.name s.compose_file with
      | error err =>
        simp [hcs] at h
        exact ⟨_, h ▸ create_stack_error_shape hcs⟩
      | ok b =>
        simp [hcs] at h
        cases hr : (stacksLoop w ex rest).2 with
        | error err =>
          rw [hr] at h
          simp [Except.map] at h
          obtain ⟨path, hp⟩ := stacksLoop_error_shape hr
          exact ⟨path, by rw [← h]; exact hp⟩
        | ok bs => rw [hr] at h; simp [Except.map] at h

theorem stacksLoop_mem_not_skipped {w : World} {ex : List String} :
    ∀ {l : List StackDeclaration} {nm : String},
      Event.createStack nm ∈ (stacksLoop w ex l).1 →
      ex.contains (lowerStr nm) = false
  | [], nm, h => by simp [stacksLoop] at h
  | s :: rest, nm, h => by
    unfold stacksLoop at h
    by_cases hc : ex.contains (lowerStr s.name)
    · rw [if_pos hc] at h
      exact stacksLoop_mem_not_skipped h
    · rw [if_neg hc] at h
      cases hcs : create_stack w s.name s.compose_file with
      | error err =>
        simp [hcs] at h
        rw [h]
        simpa using hc
      | ok b =>
        simp [hcs] at h
        cases h with
        | inl h => rw [h]; simpa using hc
        | inr h => exact stacksLoop_mem_not_skipped h

theorem stacksLoop_length {w : World} {ex : List String} :
    ∀ {l : List StackDeclaration} {bs : List Bool},
      (stacksLoop w ex l).2 = .ok bs →
      bs.length + (l.filter (fun s => ex.contains (lowerStr s.name))).length = l.length
  | [], bs, h => by simp [stacksLoop] at h; simp [h]
  | s :: rest, bs, h => by
    unfold stacksLoop at h
    by_cases hc : ex.contains (lowerStr s.name)
    · rw [if_pos hc] at h
      have := stacksLoop_length h
      simp only [List.filter_cons, hc, if_true, List.length_cons]
      omega
    · rw [if_neg hc] at h
      cases hcs : create_stack w s.name s.compose_file with
      | error err => simp [hcs] at h
      | ok b =>
        simp [hcs] at h
        cases hr : (stacksLoop w ex rest).2 with
        | error err => rw [hr] at h; simp [Except.map] at h
        | ok bs' =>
          rw [hr] at h
          simp [Except.map] at h
          have := stacksLoop_length hr
          simp only [List.filter_cons, hc, if_false, List.length_cons, ← h,
            Bool.false_eq_true, List.length_cons]
          omega

theorem main_run_exited_inv {w : World} {p : Params} {tr : List Event} {ch : Bool}
    {m : String} {d f : Nat}
    (h : main_run w p = (tr, .exited ch m d f)) :
    p.stacks_param.isEmpty = false ∧
    ping w = .ok () ∧
    ∃ b, check_admin_exists w = .ok b ∧
    ∃ bev tok, bootstrapOrLogin w p b = (bev, .ok tok) ∧
    ∃ i, get_endpoint_id w p.endpoint = .ok i ∧
    ∃ existing levs bs,
      get_all_stacks w = .ok existing ∧
      stacksLoop w existing p.stacks_param = (levs, .ok bs) ∧
      tr = Event.ping :: Event.checkAdmin ::
        (bev ++ [Event.getEndpoints, Event.getStacks] ++ levs) ∧
      ch = decide (0 < bs.count true) ∧
      m = toString bs.length ++ " stacks created" ∧
      d = bs.count true ∧ f = bs.count false := by
  unfold main_run at h
  split at h
  · simp at h
  · split at h
    · simp at h
    · split at h
      · simp at h
      · split at h
        · simp at h
        · split at h
          · simp at h
          · split at h
            · simp at h
            · split at h
              · simp at h
              · rename_i hne0 xping u hping xchk b hchk xboot bev tok hboot
                  xep i hepid xst existing hst xlp levs bs hloop
                simp only [Prod.mk.injEq, RunOutcome.exited.injEq] at h
                obtain ⟨htr, hch, hm, hd, hf⟩ := h
                exact ⟨by simpa using hne0, hping, b, hchk, bev, tok, hboot, i,
                  hepid, existing, levs, bs, hst, hloop, htr.symm, hch.symm,
                  hm.symm, hd.symm, hf.symm⟩

theorem count_true_add_count_false : ∀ (l : List Bool),
    l.count true + l.count false = l.length
  | [] => by simp
  | b :: rest => by
    have := count_true_add_count_false rest
    cases b <;> simp [List.count_cons] <;> omega

theorem main_run_failed_trace {w : World} {p : Params} {tr : List Event} {e : ApiError}
    (h : main_run w p = (tr, .failed e)) :
    (∃ path, e = .fileOpenFailed path) ∨
    (e = .getStacksFailed ∧ ∀ n, Event.createStack n ∉ tr) ∨
    (Event.getStacks ∉ tr ∧ ∀ n, Event.createStack n ∉ tr) := by
  unfold main_run at h
  split at h
  · simp at h
  · split at h
    · -- ping error
      simp only [Prod.mk.injEq, RunOutcome.failed.injEq] at h
      obtain ⟨htr, he⟩ := h
      refine Or.inr (Or.inr ⟨?_, ?_⟩) <;> rw [← htr] <;> simp
    · split at h
      · -- check_admin error
        simp only [Prod.mk.injEq, RunOutcome.failed.injEq] at h
        obtain ⟨htr, he⟩ := h
        refine Or.inr (Or.inr ⟨?_, ?_⟩) <;> rw [← htr] <;> simp
      · split at h
        · -- bootstrap error
          rename_i xboot bev e0 hboot
          rename_i hne0 xping u hping xchk badmin hchk0
          simp only [Prod.mk.injEq, RunOutcome.failed.injEq] at h
          obtain ⟨htr, he⟩ := h
          have hbev : (bootstrapOrLogin w p badmin).1 = bev := by rw [hboot]
          refine Or.inr (Or.inr ⟨?_, ?_⟩)
          · rw [← htr]
            simp
            intro hmem
            have := bootstrapOrLogin_events _ (hbev ▸ hmem)
            simp at this
          · intro n
            rw [← htr]
            simp
            intro hmem
            have := bootstrapOrLogin_events _ (hbev ▸ hmem)
            simp at this
        · split at h
          · -- get_endpoint_id error
            rename_i xep e0 hep
            simp only [Prod.mk.injEq, RunOutcome.failed.injEq] at h
            obtain ⟨htr, he⟩ := h
            rename_i hne0 xping u hping xchk badmin hchk0 xboot bev tok hboot
            have hbev : (bootstrapOrLogin w p badmin).1 = bev := by rw [hboot]
            refine Or.inr (Or.inr ⟨?_, ?_⟩)
            · rw [← htr]
              simp
              intro hmem
              have := bootstrapOrLogin_events _ (hbev ▸ hmem)
              simp at this
            · intro n
              rw [← htr]
              simp
              intro hmem
              have := bootstrapOrLogin_events _ (hbev ▸ hmem)
              simp at this
          · split at h
            · -- get_all_stacks error
              rename_i xst e0 hst
              simp only [Prod.mk.injEq, RunOutcome.failed.injEq] at h
              obtain ⟨htr, he⟩ := h
              rename_i hne0 xping u hping xchk badmin hchk0 xboot bev tok hboot xep i hepid
              have hbev : (bootstrapOrLogin w p badmin).1 = bev := by rw [hboot]
              refine Or.inr (Or.inl ⟨?_, ?_⟩)
              · rw [← he]
                exact get_all_stacks_error_shape hst
              · intro n
                rw [← htr]
                simp
                intro hmem
                have := bootstrapOrLogin_events _ (hbev ▸ hmem)
                simp at this
            · split at h
              · -- stacksLoop error
                rename_i xlp levs e0 hloop
                rename_i hne0 xping u hping xchk badmin hchk0 xboot bev tok hboot xep i hepid xst existing hst
                simp only [Prod.mk.injEq, RunOutcome.failed.injEq] at h
                obtain ⟨htr, he⟩ := h
                have hsh : (stacksLoop w existing p.stacks_param).2 = .error e0 := by rw [hloop]
                obtain ⟨path, hp⟩ := stacksLoop_error_shape hsh
                exact Or.inl ⟨path, by rw [← he, hp]⟩
              · simp at h

theorem find_endpoint_eq_none {name : String} :
    ∀ {endpoints : List Endpoint}, (∀ ep ∈ endpoints, ep.Name ≠ name) →
      find_endpoint endpoints name = none
  | [], _ => rfl
  | e :: rest, h => by
    unfold find_endpoint
    rw [if_neg (h e (by simp))]
    exact find_endpoint_eq_none (fun ep hep => h ep (by simp [hep]))

theorem find_endpoint_first {name : String} :
    ∀ (pre : List Endpoint) (e : Endpoint) (post : List Endpoint),
      (∀ x ∈ pre, x.Name ≠ name) → e.Name = name →
      find_endpoint (pre ++ e :: post) name = some e.Id
  | [], e, post, _, he => by
    simp only [List.nil_append]
    unfold find_endpoint
    rw [if_pos he]
  | x :: pre, e, post, hpre, he => by
    simp only [List.cons_append]
    unfold find_endpoint
    rw [if_neg (hpre x (by simp))]
    exact find_endpoint_first pre e post (fun y hy => hpre y (by simp [hy])) he

theorem main_createStack_mem {w : World} {p : Params} {n : String}
    (h : Event.createStack n ∈ (main_run w p).1) :
    ∃ existing, get_all_stacks w = .ok existing ∧
      Event.createStack n ∈ (stacksLoop w existing p.stacks_param).1 := by
  unfold main_run at h
  split at h
  · simp at h
  · split at h
    · simp at h
    · split at h
      · simp at h
      · split at h
        · -- bootstrap error branch
          rename_i xboot bev e0 hboot
          rename_i hne0 xping u hping xchk badmin hchk0
          simp at h
          have hbev : (bootstrapOrLogin w p badmin).1 = bev := by rw [hboot]
          have := bootstrapOrLogin_events _ (hbev ▸ h)
          simp at this
        · split at h
          · -- endpoint error branch
            rename_i hne0 xping u hping xchk badmin hchk0 xboot bev tok hboot xep e0 hep
            simp at h
            have hbev : (bootstrapOrLogin w p badmin).1 = bev := by rw [hboot]
            have := bootstrapOrLogin_events _ (hbev ▸ h)
            simp at this
          · split at h
            · -- get_all_stacks error branch
              rename_i hne0 xping u hping xchk badmin hchk0 xboot bev tok hboot xep i hepid xst e0 hst
              simp at h
              have hbev : (bootstrapOrLogin w p badmin).1 = bev := by rw [hboot]
              have := bootstrapOrLogin_events _ (hbev ▸ h)
              simp at this
            · split at h
              · -- loop error branch
                rename_i xlp levs e0 hloop
                rename_i hne0 xping u hping xchk badmin hchk0 xboot bev tok hboot xep i hepid xst existing hst
                refine ⟨existing, hst, ?_⟩
                have hlev : (stacksLoop w existing p.stacks_param).1 = levs := by rw [hloop]
                rw [hlev]
                simp at h
                rcases h with h | h
                · have hbev : (bootstrapOrLogin w p badmin).1 = bev := by rw [hboot]
                  have := bootstrapOrLogin_events _ (hbev ▸ h)
                  simp at this
                · exact h
              · -- loop ok branch
                rename_i xlp levs bs hloop
                rename_i hne0 xping u hping xchk badmin hchk0 xboot bev tok hboot xep i hepid xst existing hst
                refine ⟨existing, hst, ?_⟩
                have hlev : (stacksLoop w existing p.stacks_param).1 = levs := by rw [hloop]
                rw [hlev]
                simp at h
                rcases h with h | h
                · have hbev : (bootstrapOrLogin w p badmin).1 = bev := by rw [hboot]
                  have := bootstrapOrLogin_events _ (hbev ▸ h)
                  simp at this
                · exact h

theorem bootstrapOrLogin_cond_events (w : World) (p : Params) (b : Bool)
    (hc : (p.initial_setup && !b) = true) :
    (bootstrapOrLogin w p b).1.take 1 = [Event.createAdmin] ∧
    (w.create_admin_ok = true → (bootstrapOrLogin w p b).1.take 2 =
      [Event.createAdmin, Event.createSession]) ∧
    (w.create_admin_ok = true → w.auth_ok = true → (bootstrapOrLogin w p b).1 =
      [Event.createAdmin, Event.createSession, Event.createEndpoint]) := by
  unfold bootstrapOrLogin
  rw [if_pos hc]
  unfold create_admin create_session create_endpoint
  by_cases h1 : w.create_admin_ok <;> by_cases h2 : w.auth_ok <;>
    by_cases h3 : w.create_endpoint_ok <;> simp [h1, h2, h3]

theorem bootstrapOrLogin_else (w : World) (p : Params) (b : Bool)
    (hc : (p.initial_setup && !b) = false) :
    (bootstrapOrLogin w p b).1 = [Event.createSession] := by
  unfold bootstrapOrLogin
  rw [if_neg (by simp [hc])]
  unfold create_session
  by_cases h2 : w.auth_ok <;> simp [h2]

theorem main_run_trace_shape (w : World) (p : Params) (b : Bool)
    (hne : p.stacks_param.isEmpty = false)
    (hping : ping w = .ok ())
    (hchk : check_admin_exists w = .ok b) :
    ∃ X, (main_run w p).1 =
        Event.ping :: Event.checkAdmin :: ((bootstrapOrLogin w p b).1 ++ X) ∧
      ∀ e ∈ X, e = Event.getEndpoints ∨ e = Event.getStacks ∨
        ∃ n, e = Event.createStack n := by
  unfold main_run
  rw [hne, hping, hchk]
  simp only [Bool.false_eq_true, if_false]
  rcases hb : bootstrapOrLogin w p b with ⟨bev, sres⟩
  have hbev : (bootstrapOrLogin w p b).1 = bev := by rw [hb]
  cases sres with
  | error e =>
    refine ⟨[], ?_, by simp⟩
    simp [hbev]
  | ok tok =>
    cases hep : get_endpoint_id w p.endpoint with
    | error e =>
      refine ⟨[Event.getEndpoints], ?_, by simp⟩
      simp [hbev]
    | ok i =>
      cases hst : get_all_stacks w with
      | error e =>
        refine ⟨[Event.getEndpoints, Event.getStacks], ?_, by simp⟩
        simp [hbev]
      | ok existing =>
        rcases hlp : stacksLoop w existing p.stacks_param with ⟨levs, lres⟩
        have hlev : (stacksLoop w existing p.stacks_param).1 = levs := by rw [hlp]
        refine ⟨[Event.getEndpoints, Event.getStacks] ++ levs, ?_, ?_⟩
        · cases lres with
          | error e2 => simp [hlp]
          | ok bs2 => simp [hlp]
        · intro e he
          simp at he
          rcases he with he | he | he
          · exact Or.inl he
          · exact Or.inr (Or.inl he)
          · exact Or.inr (Or.inr (stacksLoop_events (hlev ▸ he)))

theorem stacksLoop_second_run {w w2 : World}
    (hfile : w2.file_ok = w.file_ok) (hcreate : w2.stack_create_ok = w.stack_create_ok) :
    ∀ {l : List StackDeclaration} {ex E2 : List String} {bs : List Bool},
      (∀ x ∈ ex, x ∈ E2) →
      (∀ n ∈ createdNames w ex l, lowerStr n ∈ E2) →
      (stacksLoop w ex l).2 = .ok bs →
      ∃ levs2 bs2, stacksLoop w2 E2 l = (levs2, .ok bs2) ∧ bs2.count true = 0
  | [], ex, E2, bs, hsub, hcr, h => ⟨[], [], rfl, rfl⟩
  | s :: rest, ex, E2, bs, hsub, hcr, h => by
    by_cases hc : ex.contains (lowerStr s.name) = true
    · have hmem : lowerStr s.name ∈ ex := by simpa using hc
      have hc2 : E2.contains (lowerStr s.name) = true := by
        simpa using hsub _ hmem
      rw [stacksLoop, if_pos hc] at h
      have hcr2 : ∀ n ∈ createdNames w ex rest, lowerStr n ∈ E2 := by
        intro n hn
        exact hcr n (by rw [createdNames, if_pos hc]; exact hn)
      obtain ⟨levs2, bs2, hloop2, hcnt⟩ :=
        stacksLoop_second_run hfile hcreate hsub hcr2 h
      exact ⟨levs2, bs2, by rw [stacksLoop, if_pos hc2]; exact hloop2, hcnt⟩
    · rw [stacksLoop, if_neg hc] at h
      cases hf : w.file_ok s.compose_file with
      | false =>
        rw [create_stack, hf] at h
        simp at h
      | true =>
        rw [create_stack, hf] at h
        simp only [if_true] at h
        cases hr : (stacksLoop w ex rest).2 with
        | error e => rw [hr] at h; simp [Except.map] at h
        | ok bs' =>
          rw [hr] at h
          have hcrn : createdNames w ex (s :: rest) =
              (if w.stack_create_ok s.name then [s.name] else []) ++
                createdNames w ex rest := by
            rw [createdNames, if_neg (by simpa using hc), if_pos hf]
          cases hb : w.stack_create_ok s.name with
          | true =>
            have hself : lowerStr s.name ∈ E2 := by
              apply hcr
              rw [hcrn, hb]
              simp
            have hc2 : E2.contains (lowerStr s.name) = true := by simpa using hself
            have hcr2 : ∀ n ∈ createdNames w ex rest, lowerStr n ∈ E2 := by
              intro n hn
              apply hcr
              rw [hcrn]
              exact List.mem_append_right _ hn
            obtain ⟨levs2, bs2, hloop2, hcnt⟩ :=
              stacksLoop_second_run hfile hcreate hsub hcr2 hr
            exact ⟨levs2, bs2, by rw [stacksLoop, if_pos hc2]; exact hloop2, hcnt⟩
          | false =>
            have hcr2 : ∀ n ∈ createdNames w ex rest, lowerStr n ∈ E2 := by
              intro n hn
              apply hcr
              rw [hcrn, hb]
              simpa using hn
            obtain ⟨levs2, bs2, hloop2, hcnt⟩ :=
              stacksLoop_second_run hfile hcreate hsub hcr2 hr
            by_cases hc2 : E2.contains (lowerStr s.name) = true
            · exact ⟨levs2, bs2, by rw [stacksLoop, if_pos hc2]; exact hloop2, hcnt⟩
            · refine ⟨Event.createStack s.name :: levs2, false :: bs2, ?_, by simpa using hcnt⟩
              rw [stacksLoop, if_neg hc2, create_stack, hfile, hf]
              simp only [if_true]
              rw [hloop2]
              simp [Except.map, hcreate, hb]

/-- C9: `check_admin_exists` raises (the CheckFailed family) exactly on a
transport error; on any received response it returns true iff the status code
is 204, and false for every other response. -/
theorem C9_admin_check (w : World) :
    (w.admin_check = .error () → check_admin_exists w = .error .checkAdminFailed) ∧
    (∀ code, w.admin_check = .ok code →
      check_admin_exists w = .ok (decide (code = 204))) := by
  constructor
  · intro h
    simp [check_admin_exists, h]
  · intro code h
    by_cases h204 : code = 204 <;> simp [check_admin_exists, h, h204]

/-- C9 witness: with a 204 response the check returns true; concretely
instantiates `C9_admin_check`. -/
theorem C9_admin_check_witness :
    check_admin_exists { w0 with admin_check := Except.ok 204 } =
      .ok (decide ((204 : Nat) = 204)) :=
  (C9_admin_check { w0 with admin_check := Except.ok 204 }).2 204 rfl

/-- C10: on every successful exit the message is
`f"{len(created_stacks)} stacks created"`, and `len(created_stacks)` is the
number of attempted (non-skipped) stacks: stacks_deployed plus
stacks_failed_to_deploy.  So the number in the message exceeds
`stacks_deployed` whenever at least one creation attempt failed. -/
theorem C10_message_counts_attempts (w : World) (p : Params) (tr : List Event)
    (ch : Bool) (m : String) (d f : Nat)
    (h : main_run w p = (tr, .exited ch m d f)) :
    m = toString (d + f) ++ " stacks created" := by
  obtain ⟨-, -, b, -, bev, tok, -, i, -, existing, levs, bs, -, -, -, -, hm, hd, hf⟩ :=
    main_run_exited_inv h
  subst hd hf
  rw [hm, count_true_add_count_false bs]

/-- C10 witness: one stack skipped, one attempted and failed: the message
says `1 stacks created` while stacks_deployed is 0 (0 + 1 attempts). -/
theorem C10_message_counts_attempts_witness :
    "1 stacks created" = toString ((0 : Nat) + 1) ++ " stacks created" :=
  C10_message_counts_attempts { w0 with stack_create_ok := fun _ => false } p0
    [Event.ping, Event.checkAdmin, Event.createSession, Event.getEndpoints,
      Event.getStacks, Event.createStack "Stack2"]
    false "1 stacks created" 0 1 (by decide)

/-- C4: on every successful exit the changed flag is true iff at least one
stack creation attempt succeeded (stacks_deployed > 0); in particular skipped
stacks contribute nothing (see the witness: one skipped stack plus one failed
attempt reports changed=false, deployed=0, failed=1). -/
theorem C4_changed_iff_created (w : World) (p : Params) (tr : List Event)
    (ch : Bool) (m : String) (d f : Nat)
    (h : main_run w p = (tr, .exited ch m d f)) :
    ch = true ↔ 0 < d := by
  obtain ⟨-, -, b, -, bev, tok, -, i, -, existing, levs, bs, -, -, -, hch, -, hd, -⟩ :=
    main_run_exited_inv h
  subst hch hd
  simp

/-- C4 witness: the claim scenario - desired Stack1, Stack2 with remote
stack1: Stack1 is skipped, Stack2 is attempted and fails - reports
created=0, failed=1, changed=false; the iff instantiates to false = true
iff 0 < 0. -/
theorem C4_changed_iff_created_witness :
    (main_run { w0 with stack_create_ok := fun _ => false } p0 =
      ([Event.ping, Event.checkAdmin, Event.createSession, Event.getEndpoints,
        Event.getStacks, Event.createStack "Stack2"],
       .exited false "1 stacks created" 0 1)) ∧
    (false = true ↔ 0 < 0) :=
  ⟨by decide,
   C4_changed_iff_created { w0 with stack_create_ok := fun _ => false } p0
    [Event.ping, Event.checkAdmin, Event.createSession, Event.getEndpoints,
      Event.getStacks, Event.createStack "Stack2"]
    false "1 stacks created" 0 1 (by decide)⟩

/-- C3: on every run that exits successfully, stacks_deployed plus
stacks_failed_to_deploy plus the number of skipped desired stacks (those
whose lowercased name occurs in the remote stack list, the test of line 400)
equals the number of desired stacks: each desired stack is classified in
exactly one of the three ways. -/
theorem C3_every_stack_classified (w : World) (p : Params) (tr : List Event)
    (ch : Bool) (m : String) (d f : Nat) (ex : List RemoteStack)
    (hw : w.stacks_resp = Except.ok ex)
    (h : main_run w p = (tr, .exited ch m d f)) :
    d + f +
      (p.stacks_param.filter
        (fun s => (ex.map RemoteStack.Name).contains (lowerStr s.name))).length =
      p.stacks_param.length := by
  obtain ⟨-, -, b, -, bev, tok, -, i, -, existing, levs, bs, hst, hloop, -, -, -, hd, hf⟩ :=
    main_run_exited_inv h
  have hex : existing = ex.map RemoteStack.Name := by
    rw [get_all_stacks, hw] at hst
    simpa using hst.symm
  have hloop2 : (stacksLoop w existing p.stacks_param).2 = .ok bs := by rw [hloop]
  have hlen := stacksLoop_length hloop2
  have hcount := count_true_add_count_false bs
  subst hd hf hex
  omega

/-- C3 witness: two desired stacks, one skipped (name matches remote
`stack1` after lowercasing) and one attempted-and-failed:
0 + 1 + 1 = 2. -/
theorem C3_every_stack_classified_witness :
    (0 : Nat) + 1 +
      (([⟨"Stack1", "s1.yml"⟩, ⟨"Stack2", "s2.yml"⟩] : List StackDeclaration).filter
        (fun s => (([⟨"stack1"⟩] : List RemoteStack).map RemoteStack.Name).contains
          (lowerStr s.name))).length =
      ([⟨"Stack1", "s1.yml"⟩, ⟨"Stack2", "s2.yml"⟩] : List StackDeclaration).length :=
  C3_every_stack_classified { w0 with stack_create_ok := fun _ => false } p0
    [Event.ping, Event.checkAdmin, Event.createSession, Event.getEndpoints,
      Event.getStacks, Event.createStack "Stack2"]
    false "1 stacks created" 0 1 [⟨"stack1"⟩] rfl (by decide)

/-- C7: with a non-empty stack list, a `ping` failure ends the run at once -
the trace is exactly `[ping]`, no further remote call happens, and the
outcome is the fatal `fail_json(changed=False)` report; and whenever the run
ends in the fatal report with an error that is not the compose-file-open
escape from the per-stack loop (i.e. the exception arose in steps 1-5), no
`create_stack` call occurred: no stacks were attempted and no counts are
emitted (the `failed` outcome carries none). -/
theorem C7_fatal_steps_abort (w : World) (p : Params)
    (hne : p.stacks_param.isEmpty = false) :
    (w.ping_ok = false → main_run w p = ([Event.ping], .failed .pingFailed)) ∧
    (∀ tr e, main_run w p = (tr, .failed e) →
      (∀ path, e ≠ ApiError.fileOpenFailed path) →
      ∀ n, Event.createStack n ∉ tr) := by
  constructor
  · intro hp
    unfold main_run
    simp [hne, ping, hp]
  · intro tr e h hnf n
    rcases main_run_failed_trace h with ⟨path, hp⟩ | ⟨-, hmem⟩ | ⟨-, hmem⟩
    · exact absurd hp (hnf path)
    · exact hmem n
    · exact hmem n

/-- C7 witness: an unreachable control plane: the run performs only the ping
and reports the fatal failure. -/
theorem C7_fatal_steps_abort_witness :
    main_run { w0 with ping_ok := false } p0 = ([Event.ping], .failed .pingFailed) :=
  (C7_fatal_steps_abort { w0 with ping_ok := false } p0 rfl).1 rfl

/-- C8: `get_endpoint_id` lists the endpoints and searches linearly by name:
with an empty listing it raises `0 endpoints found.`; when no listed name
matches it raises an endpoint-not-found error; when a match exists it returns
the id of the first matching endpoint.  And any run that ends with an
endpoint-not-found failure made no stack-listing and no stack-creation call. -/
theorem C8_endpoint_resolution (w : World) (name : String)
    (endpoints : List Endpoint) (hw : w.endpoints_resp = Except.ok endpoints) :
    (endpoints = [] →
      get_endpoint_id w name = .error (.endpointNotFound "0 endpoints found.")) ∧
    ((∀ ep ∈ endpoints, ep.Name ≠ name) →
      ∃ msg, get_endpoint_id w name = .error (.endpointNotFound msg)) ∧
    (∀ pre e post, endpoints = pre ++ e :: post → (∀ x ∈ pre, x.Name ≠ name) →
      e.Name = name → get_endpoint_id w name = .ok e.Id) ∧
    (∀ p tr msg, main_run w p = (tr, .failed (.endpointNotFound msg)) →
      Event.getStacks ∉ tr ∧ ∀ n, Event.createStack n ∉ tr) := by
  refine ⟨?_, ?_, ?_, ?_⟩
  · intro h
    subst h
    simp [get_endpoint_id, get_all_endpoints, hw]
  · intro hno
    cases endpoints with
    | nil => exact ⟨"0 endpoints found.", by simp [get_endpoint_id, get_all_endpoints, hw]⟩
    | cons e rest =>
      refine ⟨"ERROR (get_endpoint_id): Endpoint " ++ name ++ " not found", ?_⟩
      rw [get_endpoint_id, get_all_endpoints, hw]
      simp only [List.length_cons]
      rw [if_neg (by simp)]
      rw [find_endpoint_eq_none hno]
  · intro pre e post heq hpre hename
    subst heq
    simp only [get_endpoint_id, get_all_endpoints, hw]
    rw [if_neg (by simp), find_endpoint_first pre e post hpre hename]
  · intro p tr msg h
    rcases main_run_failed_trace h with ⟨path, hp⟩ | ⟨he, -⟩ | ⟨hgs, hmem⟩
    · simp at hp
    · simp at he
    · exact ⟨hgs, hmem⟩

/-- C8 witness: an empty listing raises; a listing containing `local` with id
1 resolves to 1; a run whose listing lacks the configured name aborts right
after `getEndpoints`, its trace free of `getStacks`. -/
theorem C8_endpoint_resolution_witness :
    get_endpoint_id { w0 with endpoints_resp := Except.ok [] } "local" =
      .error (.endpointNotFound "0 endpoints found.") ∧
    get_endpoint_id w0 "local" = .ok (1 : Int) ∧
    Event.getStacks ∉
      [Event.ping, Event.checkAdmin, Event.createSession, Event.getEndpoints] :=
  ⟨(C8_endpoint_resolution { w0 with endpoints_resp := Except.ok [] } "local" []
      rfl).1 rfl,
   (C8_endpoint_resolution w0 "local" [⟨1, "local"⟩] rfl).2.2.1
      [] ⟨1, "local"⟩ [] rfl (by simp) rfl,
   ((C8_endpoint_resolution { w0 with endpoints_resp := Except.ok [⟨1, "other"⟩] }
      "local" [⟨1, "other"⟩] rfl).2.2.2 p0
      [Event.ping, Event.checkAdmin, Event.createSession, Event.getEndpoints]
      "ERROR (get_endpoint_id): Endpoint local not found" (by decide)).1⟩

/-- C6: given the run reached the admin check (ping and the check succeeded,
the check returning `b`), the bootstrap calls happen exactly when
`initial_setup and not admin_exists` (line 385): in that case the run opens
with ping, checkAdmin, then createAdmin, then (once admin creation succeeded)
createSession, then (once the session succeeded) createEndpoint - in that
order; otherwise neither createAdmin nor createEndpoint is ever called and
the run proceeds directly to a standalone createSession as its third call. -/
theorem C6_bootstrap_exactly_when (w : World) (p : Params) (b : Bool)
    (hne : p.stacks_param.isEmpty = false)
    (hping : ping w = .ok ())
    (hchk : check_admin_exists w = .ok b) :
    ((p.initial_setup && !b) = true →
      (main_run w p).1.take 3 = [Event.ping, Event.checkAdmin, Event.createAdmin] ∧
      (w.create_admin_ok = true → (main_run w p).1.take 4 =
        [Event.ping, Event.checkAdmin, Event.createAdmin, Event.createSession]) ∧
      (w.create_admin_ok = true → w.auth_ok = true → (main_run w p).1.take 5 =
        [Event.ping, Event.checkAdmin, Event.createAdmin, Event.createSession,
          Event.createEndpoint])) ∧
    ((p.initial_setup && !b) = false →
      Event.createAdmin ∉ (main_run w p).1 ∧
      Event.createEndpoint ∉ (main_run w p).1 ∧
      (main_run w p).1.take 3 =
        [Event.ping, Event.checkAdmin, Event.createSession]) := by
  obtain ⟨X, htr, hX⟩ := main_run_trace_shape w p b hne hping hchk
  constructor
  · intro hc
    obtain ⟨h1, h2, h3⟩ := bootstrapOrLogin_cond_events w p b hc
    have hlen1 : 1 ≤ (bootstrapOrLogin w p b).1.length := by
      have := congrArg List.length h1
      simp [List.length_take] at this
      omega
    refine ⟨?_, ?_, ?_⟩
    · rw [htr, List.take_succ_cons, List.take_succ_cons,
        List.take_append_eq_append_take, h1]
      have h0 : 1 - (bootstrapOrLogin w p b).1.length = 0 := by omega
      rw [h0]
      simp
    · intro hca
      have hlen2 : 2 ≤ (bootstrapOrLogin w p b).1.length := by
        have := congrArg List.length (h2 hca)
        simp [List.length_take] at this
        omega
      rw [htr, List.take_succ_cons, List.take_succ_cons,
        List.take_append_eq_append_take, h2 hca]
      have h0 : 2 - (bootstrapOrLogin w p b).1.length = 0 := by omega
      rw [h0]
      simp
    · intro hca hau
      rw [htr, h3 hca hau]
      simp
  · intro hc
    have helse := bootstrapOrLogin_else w p b hc
    rw [htr, helse]
    refine ⟨?_, ?_, ?_⟩
    · simp only [List.cons_append, List.nil_append, List.mem_cons]
      intro hmem
      rcases hmem with h | h | h | hmem
      · simp at h
      · simp at h
      · simp at h
      · rcases hX _ hmem with h | h | ⟨n, h⟩ <;> simp at h
    · simp only [List.cons_append, List.nil_append, List.mem_cons]
      intro hmem
      rcases hmem with h | h | h | hmem
      · simp at h
      · simp at h
      · simp at h
      · rcases hX _ hmem with h | h | ⟨n, h⟩ <;> simp at h
    · simp

/-- C6 witness: fresh instance (admin check returns false) with
initial_setup=true: the run opens ping, checkAdmin, createAdmin,
createSession, createEndpoint in that order. -/
theorem C6_bootstrap_exactly_when_witness :
    (main_run w0 { p0 with initial_setup := true }).1.take 5 =
      [Event.ping, Event.checkAdmin, Event.createAdmin, Event.createSession,
        Event.createEndpoint] :=
  ((C6_bootstrap_exactly_when w0 { p0 with initial_setup := true } false rfl rfl
      rfl).1 rfl).2.2 rfl rfl

/-- C1 counterexample: one remote stack `Stack1` and one desired stack
`stack1`: the two names are equal after lowercasing both, yet the desired
stack is NOT skipped - it is submitted to `create_stack` and reported
created - because line 400 lowercases only the desired name while
`get_all_stacks` (line 250) returns the remote names verbatim. -/
theorem C1_counterexample :
    lowerStr "stack1" = lowerStr "Stack1" ∧
    Event.createStack "stack1" ∈
      (main_run { w0 with stacks_resp := Except.ok [⟨"Stack1"⟩] }
        { p0 with stacks_param := [⟨"stack1", "s1.yml"⟩] }).1 ∧
    (main_run { w0 with stacks_resp := Except.ok [⟨"Stack1"⟩] }
        { p0 with stacks_param := [⟨"stack1", "s1.yml"⟩] }).2 =
      .exited true "1 stacks created" 1 0 :=
  ⟨rfl, by decide, by decide⟩

/-- C1 (amended): a desired stack is skipped iff its lowercased name occurs
verbatim in the remote stack list, so a case-insensitive name match forces a
skip exactly when the matching remote name is itself all-lowercase; under
that proviso no `create_stack` call is ever made for that stack name. -/
theorem C1_skip_when_remote_lowercase (w : World) (p : Params)
    (ex : List RemoteStack) (s : StackDeclaration) (r : String)
    (hw : w.stacks_resp = Except.ok ex)
    (hr : r ∈ ex.map RemoteStack.Name) (hlow : lowerStr r = r)
    (hmatch : lowerStr s.name = lowerStr r) :
    Event.createStack s.name ∉ (main_run w p).1 := by
  intro hmem
  obtain ⟨existing, hst, hloop⟩ := main_createStack_mem hmem
  have h2 : get_all_stacks w = .ok (ex.map RemoteStack.Name) := by
    simp [get_all_stacks, hw]
  rw [h2] at hst
  injection hst with hex
  have hcontains := stacksLoop_mem_not_skipped hloop
  rw [hmatch, hlow, ← hex] at hcontains
  have htrue : (ex.map RemoteStack.Name).contains r = true := by simpa using hr
  rw [htrue] at hcontains
  simp at hcontains

/-- C1 amended witness: remote stack `stack1` (lowercase), desired stack
`STACK1`: never submitted to `create_stack`. -/
theorem C1_skip_when_remote_lowercase_witness :
    Event.createStack "STACK1" ∉
      (main_run w0 { p0 with stacks_param := [⟨"STACK1", "s1.yml"⟩] }).1 :=
  C1_skip_when_remote_lowercase w0
    { p0 with stacks_param := [⟨"STACK1", "s1.yml"⟩] }
    [⟨"stack1"⟩] ⟨"STACK1", "s1.yml"⟩ "stack1" rfl (by decide) (by decide)
    (by decide)

/-- C2 counterexample: with an unreadable compose file `create_stack` does
not return false: the `open` of line 315 raises before the `try` of line 323,
and the whole batch aborts - `main` ends in the fatal failure report instead
of continuing with the remaining stacks. -/
theorem C2_counterexample :
    create_stack { w0 with file_ok := fun _ => false } "Stack2" "s2.yml" =
      .error (.fileOpenFailed "s2.yml") ∧
    (main_run { w0 with file_ok := fun _ => false } p0).2 =
      .failed (.fileOpenFailed "s2.yml") :=
  ⟨rfl, by decide⟩

/-- C2 (amended): only a failure of the HTTP POST itself is absorbed: when
the compose file opens, `create_stack` returns the POST outcome as a plain
boolean (false on a RequestException, line 339) and the per-stack loop
records it and continues with the remaining stacks; a compose-file-open
failure instead raises and aborts the batch (see `C2_counterexample`). -/
theorem C2_http_failure_absorbed (w : World) (ex : List String)
    (s : StackDeclaration) (rest : List StackDeclaration)
    (hns : ex.contains (lowerStr s.name) = false)
    (hfile : w.file_ok s.compose_file = true) :
    create_stack w s.name s.compose_file = .ok (w.stack_create_ok s.name) ∧
    stacksLoop w ex (s :: rest) =
      (Event.createStack s.name :: (stacksLoop w ex rest).1,
       Except.map (fun bs => w.stack_create_ok s.name :: bs)
         (stacksLoop w ex rest).2) := by
  have hcs : create_stack w s.name s.compose_file =
      .ok (w.stack_create_ok s.name) := by
    rw [create_stack, hfile]
    simp
  refine ⟨hcs, ?_⟩
  rw [stacksLoop, if_neg (by simpa using hns), hcs]

/-- C2 amended witness: the POST for `Stack2` fails (recorded as false) and
the loop still attempts `Stack3`. -/
theorem C2_http_failure_absorbed_witness :
    stacksLoop { w0 with stack_create_ok := fun _ => false } ["stack1"]
        [⟨"Stack2", "s2.yml"⟩, ⟨"Stack3", "s3.yml"⟩] =
      ([Event.createStack "Stack2", Event.createStack "Stack3"],
        Except.ok [false, false]) := by
  have h := C2_http_failure_absorbed { w0 with stack_create_ok := fun _ => false }
    ["stack1"] ⟨"Stack2", "s2.yml"⟩ [⟨"Stack3", "s3.yml"⟩] (by decide) (by decide)
  rw [h.2]
  rfl

/-- C5 counterexample: no remote stacks and one desired stack `StackA`: the
first run creates it; re-running with the remote list now reporting the
created stack under its submitted name `StackA` (nothing else changed), the
second run creates it AGAIN - 1 creation, not 0 - because line 400 compares
the lowercased desired name against the remote names verbatim. -/
theorem C5_counterexample :
    (main_run { w0 with stacks_resp := Except.ok [] }
        { p0 with stacks_param := [⟨"StackA", "sA.yml"⟩] }).2 =
      .exited true "1 stacks created" 1 0 ∧
    (main_run { w0 with stacks_resp := Except.ok [⟨"StackA"⟩] }
        { p0 with stacks_param := [⟨"StackA", "sA.yml"⟩] }).2 =
      .exited true "1 stacks created" 1 0 :=
  ⟨by decide, by decide⟩

/-- C5 (amended): a second run with the same desired list and the remote
unchanged except that it now also lists the names created by the first
run under their LOWERCASED names (as a control plane that normalizes stack
names reports them) deploys zero stacks and reports changed=false.  With a
created mixed-case name reported verbatim instead, the stack is re-created
(see `C5_counterexample`). -/
theorem C5_second_run_zero_creations (w : World) (p : Params)
    (ex : List RemoteStack) (tr : List Event) (ch : Bool) (m : String)
    (d f : Nat)
    (hw : w.stacks_resp = Except.ok ex)
    (h1 : main_run w p = (tr, .exited ch m d f)) :
    deployedOf (main_run
      { w with stacks_resp := Except.ok (ex ++
          (createdNames w (ex.map RemoteStack.Name) p.stacks_param).map
            (fun n => RemoteStack.mk (lowerStr n))) } p).2 = some 0 ∧
    changedOf (main_run
      { w with stacks_resp := Except.ok (ex ++
          (createdNames w (ex.map RemoteStack.Name) p.stacks_param).map
            (fun n => RemoteStack.mk (lowerStr n))) } p).2 = some false := by
  obtain ⟨hne, hping, b, hchk, bev, tok, hboot, i, hepid, existing, levs, bs,
    hst, hloop, -, -, -, -, -⟩ := main_run_exited_inv h1
  have h2 : get_all_stacks w = .ok (ex.map RemoteStack.Name) := by
    simp [get_all_stacks, hw]
  rw [h2] at hst
  injection hst with hex
  subst hex
  have hloopOk : (stacksLoop w (ex.map RemoteStack.Name) p.stacks_param).2 =
      .ok bs := by rw [hloop]
  set created := createdNames w (ex.map RemoteStack.Name) p.stacks_param
    with hcreated
  set w2 : World := { w with stacks_resp := Except.ok (ex ++
    created.map (fun n => RemoteStack.mk (lowerStr n))) } with hw2
  set E2 : List String :=
    (ex ++ created.map (fun n => RemoteStack.mk (lowerStr n))).map RemoteStack.Name with hE2
  have hst2 : get_all_stacks w2 = .ok E2 := by rw [hw2, hE2]; rfl
  have hsub : ∀ x ∈ ex.map RemoteStack.Name, x ∈ E2 := by
    intro x hx
    rw [hE2, List.map_append]
    exact List.mem_append_left _ hx
  have hcr : ∀ n ∈ created, lowerStr n ∈ E2 := by
    intro n hn
    rw [hE2, List.map_append]
    refine List.mem_append_right _ ?_
    rw [List.map_map]
    exact List.mem_map.mpr ⟨n, hn, rfl⟩
  obtain ⟨levs2, bs2, hloop2, hcnt⟩ :=
    @stacksLoop_second_run w w2 rfl rfl p.stacks_param
      (List.map RemoteStack.Name ex) E2 bs hsub hcr hloopOk
  have hping2 : ping w2 = .ok () := hping
  have hchk2 : check_admin_exists w2 = .ok b := hchk
  have hboot2 : bootstrapOrLogin w2 p b = (bev, .ok tok) := hboot
  have hepid2 : get_endpoint_id w2 p.endpoint = .ok i := hepid
  have hmain2 : main_run w2 p =
      (Event.ping :: Event.checkAdmin ::
        (bev ++ [Event.getEndpoints, Event.getStacks] ++ levs2),
       .exited (decide (0 < bs2.count true))
         (toString bs2.length ++ " stacks created")
         (bs2.count true) (bs2.count false)) := by
    unfold main_run
    rw [hne]
    simp only [Bool.false_eq_true, if_false]
    rw [hping2, hchk2]
    simp only []
    rw [hboot2]
    simp only []
    rw [hepid2]
    simp only []
    rw [hst2]
    simp only []
    rw [hloop2]
  rw [hmain2, hcnt]
  simp [deployedOf, changedOf]

/-- C5 amended witness: first run creates `StackA` from an empty remote; the
second run, whose remote now lists `stacka`, deploys zero stacks. -/
theorem C5_second_run_zero_creations_witness :
    deployedOf (main_run
      { w0 with stacks_resp := Except.ok [RemoteStack.mk "stacka"] }
      { p0 with stacks_param := [⟨"StackA", "sA.yml"⟩] }).2 = some 0 := by
  exact (C5_second_run_zero_creations { w0 with stacks_resp := Except.ok [] }
    { p0 with stacks_param := [⟨"StackA", "sA.yml"⟩] } []
    [Event.ping, Event.checkAdmin, Event.createSession, Event.getEndpoints,
      Event.getStacks, Event.createStack "StackA"]
    true "1 stacks created" 1 0 rfl (by decide)).1

end Portainer
